import Mathlib

/-!
Verification development for the codenamesgreen game server
(src/gameapi/handler.go, src/cmd/greenapid/main.go).

The HTTP handlers in handler.go are embedded as pure Lean functions over an
explicit handler state (the registry of games).  The game engine itself
(the Game methods `markSeen`, `guess`, `addEvent`, `eventsSince`,
`pruneOldPlayers`, the board generator `NewState` and the constant
`colorDistribution`) is not part of src/ — only its callers in handler.go
are — so those operations are modelled from the spec, as noted on each
definition.
-/

namespace CodenamesGreen

/-- Modelled from the spec: tile colors.  The color constants themselves are
not in src/; we use the three letters of the scenario distribution of spec
section 8 (A, B, N). -/
inductive Color where
  | A
  | B
  | N
deriving DecidableEq

/-- Modelled from the spec: `colorDistribution`, the fixed multiset of colors,
is not in src/ (handler.go only takes its length).  We use the scenario
distribution of spec section 8: 8 tiles, 3 x A, 2 x B, 3 x N. -/
def colorDistribution : List Color := [.A, .A, .A, .B, .B, .N, .N, .N]

/-- A board tile: word, color (immutable after generation), revealed flag. -/
structure Tile where
  word : String
  color : Color
  revealed : Bool
deriving DecidableEq

/-- Modelled from the spec: a player entry — display name, team, last-seen
time (nanoseconds).  The id is the key of the players map. -/
structure Player where
  name : String
  team : Int
  lastSeen : Int
deriving DecidableEq

/-- A sequence-numbered event record, with the fields handler.go writes
(type tag, team, player id, name, guess index, chat message).  Fields not
set by a given handler keep their zero values, as in Go. -/
structure Event where
  number : Nat
  type : String
  team : Int
  playerID : String
  name : String
  index : Int
  message : String
deriving DecidableEq

/-- One session's state: seed, tiles, players keyed by id, append-only event
log, creation time.  The notification signal of the Go struct is a pure
concurrency artifact and has no counterpart in this sequential embedding. -/
structure Game where
  seed : Nat
  tiles : List Tile
  players : List (String × Player)
  events : List Event
  createdAt : Int
deriving DecidableEq

/-- The handler state: the registry mapping session id to game, plus the
combined default word list. -/
structure HandlerState where
  games : List (String × Game)
  allWords : List String
deriving DecidableEq

/-- Responses written by the handlers: a structured error (`writeError`),
the ok ack, a `GameUpdate` (seed plus events), a full game snapshot, or the
index response carrying the autogenerated id. -/
inductive Response where
  | errorResp (code : String)
  | okResp
  | updateResp (seed : Nat) (events : List Event)
  | gameResp (g : Game)
  | indexResp (autogeneratedID : String)
deriving DecidableEq

/-- Association-list lookup (the Go map read `h.games[id]`). -/
def alookup {α : Type} (id : String) : List (String × α) → Option α
  | [] => none
  | (k, v) :: rest => if k = id then some v else alookup id rest

/-- Association-list upsert (the Go map write `m[id] = v`). -/
def upsert {α : Type} (id : String) (v : α) : List (String × α) → List (String × α)
  | [] => [(id, v)]
  | (k, w) :: rest => if k = id then (id, v) :: rest else (k, w) :: upsert id v rest

def lookupGame (s : HandlerState) (id : String) : Option Game :=
  alookup id s.games

def setGame (s : HandlerState) (id : String) (g : Game) : HandlerState :=
  { s with games := upsert id g s.games }

/-- Modelled from the spec: a deterministic seeded pseudo-random step (the
`rand.Rand` source derived from the seed in game.go, which is not in src/).
Any fixed pure function works for the spec's purposes; we use a 64-bit
linear congruential step. -/
def lcg (s : Nat) : Nat :=
  (6364136223846793005 * s + 1442695040888963407) % 18446744073709551616

/-- Modelled from the spec: a uniform selection shuffle driven by the seeded
source (spec section 4.1: "perform a uniform shuffle").  Each round picks the
element at position `rng mod length`, emits it and recurses on the rest,
threading the source state. -/
def shuffleGo {α : Type} [DecidableEq α] : Nat → Nat → List α → List α × Nat
  | 0, rng, l => (l, rng)
  | _ + 1, rng, [] => ([], rng)
  | f + 1, rng, x :: xs =>
      let l := x :: xs
      let j := rng % l.length
      let y := l.get ⟨j, Nat.mod_lt _ (Nat.succ_pos xs.length)⟩
      let r := shuffleGo f (lcg rng) (l.erase y)
      (y :: r.1, r.2)

/-- Modelled from the spec: `NewState(seed, words)` (spec section 4.1):
shuffle the word list with the seeded source and take the first
`|colorDistribution|` words; shuffle the color distribution with the same
source; zip positionally into unrevealed tiles. -/
def NewState (seed : Nat) (words : List String) : List Tile :=
  let sw := shuffleGo words.length (lcg seed) words
  let sc := shuffleGo colorDistribution.length sw.2 colorDistribution
  List.zipWith (fun w c => ⟨w, c, false⟩) (sw.1.take colorDistribution.length) sc.1

/-- Modelled from the spec: `markSeen` (spec section 4.2) — idempotent upsert
of the player entry; no event emitted. -/
def markSeen (g : Game) (pid name : String) (team : Int) (now : Int) : Game :=
  { g with players := upsert pid ⟨name, team, now⟩ g.players }

/-- Modelled from the spec: `addEvent` (spec section 4.2) — assigns the next
sequence number and appends to the log.  (Retiring the notification signal is
a concurrency effect with no counterpart here.) -/
def addEvent (g : Game) (e : Event) : Game :=
  { g with events := g.events ++ [{ e with number := g.events.length + 1 }] }

/-- Modelled from the spec: `eventsSince(n)` (spec section 4.2) — all events
with sequence number greater than `n`. -/
def eventsSince (g : Game) (n : Int) : List Event :=
  g.events.filter fun e => decide (n < (e.number : Int))

/-- Modelled from the spec: `guess` (spec section 4.2) — validates the index
is within board bounds (else reject, no mutation); calls markSeen; sets the
tile's revealed flag (a repeat guess is a state no-op); appends a guess
event. -/
def guess (g : Game) (pid name : String) (team : Int) (index : Int) (now : Int) : Game :=
  if h : 0 ≤ index ∧ index.toNat < g.tiles.length then
    let g1 := markSeen g pid name team now
    let t := g.tiles.get ⟨index.toNat, h.2⟩
    addEvent { g1 with tiles := g1.tiles.set index.toNat { t with revealed := true } }
      ⟨0, "guess", team, pid, name, index, ""⟩
  else
    g

/-- Modelled from the spec: the idle threshold of `pruneOldPlayers` is a
constant of game.go, not in src/ and not fixed by the spec; we use five
minutes in nanoseconds.  No claim depends on its value. -/
def idleThresholdNanos : Int := 300000000000

/-- Modelled from the spec: `pruneOldPlayers(now)` (spec section 4.2) —
removes players whose last-seen exceeds the idle threshold, never emits an
event. -/
def pruneOldPlayers (g : Game) (now : Int) : Game :=
  { g with players := g.players.filter fun p => decide (now - p.2.lastSeen ≤ idleThresholdNanos) }

/-- 24 hours in nanoseconds, the retention window of the sweep
(handler.go line 58). -/
def dayNanos : Int := 86400000000000

/-- The periodic sweep of handler.go lines 50-65: prune every game's idle
players, then delete the sessions that have zero players remaining and whose
creation time is at least 24 hours before `now`. -/
def sweep (s : HandlerState) (now : Int) : HandlerState :=
  { s with
    games := (s.games.map fun p => (p.1, pruneOldPlayers p.2 now)).filter
      fun p => decide (0 < p.2.players.length) || decide (now < p.2.createdAt + dayNanos) }

/-- handler.go `handleNewGame` (lines 117-171).  The fresh seed drawn from
`h.rand.Int63()` and the current time are explicit parameters.  A body that
failed to decode is outside this embedding; `gameID = ""` is the in-model
malformed case.  `ReconstructGame(NewState(...))` (game.go, not in src/) is
modelled from the spec as the game aggregate with the generated tiles, empty
players and events.  `newGameBody` is the creation path of handler.go lines
145-170, shared by the no-existing-game and matching-prev-seed branches. -/
def newGameBody (s : HandlerState) (gameID : String) (bodyWords : List String)
    (freshSeed : Nat) (now : Int) (old : Option Game) : HandlerState × Response :=
  let words := if bodyWords = [] then s.allWords else bodyWords
  if words.length < colorDistribution.length then
    (s, .errorResp "too_few_words")
  else
    let base : Game :=
      { seed := freshSeed, tiles := NewState freshSeed words,
        players := [], events := [], createdAt := now }
    let g : Game :=
      match old with
      | some og =>
          { base with players := og.players.map fun p => (p.1, ⟨"", 0, p.2.lastSeen⟩) }
      | none => base
    (setGame s gameID g, .gameResp g)

def handleNewGame (s : HandlerState) (gameID : String) (bodyWords : List String)
    (prevSeed : Option Nat) (freshSeed : Nat) (now : Int) : HandlerState × Response :=
  if gameID = "" then (s, .errorResp "malformed_body")
  else
    match lookupGame s gameID with
    | some og =>
        if prevSeed ≠ some og.seed then (s, .gameResp og)
        else newGameBody s gameID bodyWords freshSeed now (some og)
    | none => newGameBody s gameID bodyWords freshSeed now none

/-- handler.go `handleGuess` (lines 174-208). -/
def handleGuess (s : HandlerState) (gameID : String) (seed : Nat) (pid name : String)
    (team : Int) (index : Int) (now : Int) : HandlerState × Response :=
  if gameID = "" ∨ team = 0 ∨ pid = "" then (s, .errorResp "malformed_body")
  else
    match lookupGame s gameID with
    | none => (s, .errorResp "not_found")
    | some g =>
        if seed ≠ g.seed then (s, .errorResp "bad_seed")
        else
          let g1 := guess (markSeen g pid name team now) pid name team index now
          (setGame s gameID g1, .okResp)

/-- handler.go `handleEndTurn` (lines 211-249). -/
def handleEndTurn (s : HandlerState) (gameID : String) (seed : Nat) (pid name : String)
    (team : Int) (now : Int) : HandlerState × Response :=
  if gameID = "" ∨ team = 0 ∨ pid = "" then (s, .errorResp "malformed_body")
  else
    match lookupGame s gameID with
    | none => (s, .errorResp "not_found")
    | some g =>
        if seed ≠ g.seed then (s, .errorResp "bad_seed")
        else
          let g1 := addEvent (markSeen g pid name team now) ⟨0, "end_turn", team, pid, name, 0, ""⟩
          (setGame s gameID g1, .okResp)

/-- handler.go `handleChat` (lines 252-292). -/
def handleChat (s : HandlerState) (gameID : String) (seed : Nat) (pid name : String)
    (team : Int) (message : String) (now : Int) : HandlerState × Response :=
  if gameID = "" ∨ team = 0 ∨ pid = "" ∨ message = "" then (s, .errorResp "malformed_body")
  else
    match lookupGame s gameID with
    | none => (s, .errorResp "not_found")
    | some g =>
        if seed ≠ g.seed then (s, .errorResp "bad_seed")
        else
          let g1 := addEvent (markSeen g pid name team now) ⟨0, "chat", team, pid, name, 0, message⟩
          (setGame s gameID g1, .okResp)

/-- handler.go `handlePing` (lines 369-400): on a seed match it only calls
`markSeen`. -/
def handlePing (s : HandlerState) (gameID : String) (seed : Nat) (pid name : String)
    (team : Int) (now : Int) : HandlerState × Response :=
  if gameID = "" ∨ pid = "" then (s, .errorResp "malformed_body")
  else
    match lookupGame s gameID with
    | none => (s, .errorResp "not_found")
    | some g =>
        if seed ≠ g.seed then (s, .errorResp "bad_seed")
        else (setGame s gameID (markSeen g pid name team now), .okResp)

/-- handler.go `handleEvents` (lines 295-362), restricted to its sequential
outcomes: on a seed mismatch, the current seed and the events since
`lastEvent` with no mutation; on a match, `markSeen` and the same update
(the empty-update case doubles as the long-poll timeout outcome; the
signal-wait path is concurrency outside this embedding). -/
def handleEvents (s : HandlerState) (gameID : String) (seed : Nat) (pid name : String)
    (team : Int) (lastEvent : Int) (now : Int) : HandlerState × Response :=
  if gameID = "" ∨ pid = "" then (s, .errorResp "malformed_body")
  else
    match lookupGame s gameID with
    | none => (s, .errorResp "not_found")
    | some g =>
        if seed ≠ g.seed then (s, .updateResp g.seed (eventsSince g lastEvent))
        else
          let g1 := markSeen g pid name team now
          (setGame s gameID g1, .updateResp g.seed (eventsSince g1 lastEvent))

/-- handler.go `handleIndex` (lines 96-114): the candidate-id loop.  The Go
code declares an outer `id := ""`, then inside the loop assigns the joined
two-word candidate to a new short-variable declaration `id :=`, which shadows
the outer variable; the loop breaks when the candidate is free.  `draws` is
the stream of lowercased word pairs produced by `h.rand`; the result is the
outer variable's value at loop exit (`none` when the loop never exits within
the supplied draws). -/
def indexLoop (games : List (String × Game)) (id : String) :
    List (String × String) → Option String
  | [] => none
  | (w1, w2) :: rest =>
      let innerId := w1 ++ "-" ++ w2
      if (alookup innerId games).isNone then some id
      else indexLoop games id rest

/-- handler.go `handleIndex`: runs the loop starting from the outer
`id := ""` and serializes the outer variable into the response. -/
def handleIndex (s : HandlerState) (draws : List (String × String)) : Option Response :=
  (indexLoop s.games "" draws).map .indexResp

/-- The game-level mutations a single session can undergo after creation,
as performed by the seed-matching paths of the handlers (the game lock
linearizes them, so a session's history is a sequence of these). -/
inductive Op where
  | guessOp (pid name : String) (team : Int) (index : Int) (now : Int)
  | endTurnOp (pid name : String) (team : Int) (now : Int)
  | chatOp (pid name : String) (team : Int) (message : String) (now : Int)
  | pingOp (pid name : String) (team : Int) (now : Int)

/-- One operation applied to a game, exactly as the corresponding handler
applies it on its seed-matching path. -/
def step (g : Game) : Op → Game
  | .guessOp pid name team index now => guess (markSeen g pid name team now) pid name team index now
  | .endTurnOp pid name team now =>
      addEvent (markSeen g pid name team now) ⟨0, "end_turn", team, pid, name, 0, ""⟩
  | .chatOp pid name team message now =>
      addEvent (markSeen g pid name team now) ⟨0, "chat", team, pid, name, 0, message⟩
  | .pingOp pid name team now => markSeen g pid name team now

/-- A freshly created game, as `handleNewGame` builds it for a new session. -/
def mkGame (seed : Nat) (words : List String) (now : Int) : Game :=
  { seed := seed, tiles := NewState seed words, players := [], events := [], createdAt := now }

/-- A session's state after any interleaving of operations. -/
def runOps (g : Game) (ops : List Op) : Game :=
  ops.foldl step g

/-- The event log is well numbered: the sequence numbers are exactly
1, 2, ..., length, in order. -/
def NumbersOk (g : Game) : Prop :=
  g.events.map Event.number = List.range' 1 g.events.length

/-- A concrete one-session registry used to instantiate the theorems:
session "g" holds a game with seed 1, no tiles, no players, no events,
created at time 0. -/
def cGame : Game := { seed := 1, tiles := [], players := [], events := [], createdAt := 0 }

def cState : HandlerState := { games := [("g", cGame)], allWords := [] }

/-- A concrete duplicate-free eight-word list. -/
def cWords : List String := ["w0", "w1", "w2", "w3", "w4", "w5", "w6", "w7"]

/-- A concrete eight-word list containing a duplicate word. -/
def dupWords : List String := ["a", "a", "b", "c", "d", "e", "f", "g"]

theorem numbersOk_markSeen (g : Game) (pid name : String) (team : Int) (now : Int)
    (h : NumbersOk g) : NumbersOk (markSeen g pid name team now) := h

theorem range1_concat : ∀ (n s : Nat), List.range' s (n + 1) = List.range' s n ++ [s + n] := by
  intro n
  induction n with
  | zero => intro s; rfl
  | succ m ih =>
      intro s
      show s :: List.range' (s + 1) (m + 1) = (s :: List.range' (s + 1) m) ++ [s + (m + 1)]
      rw [ih (s + 1)]
      have he : s + 1 + m = s + (m + 1) := by omega
      rw [he]
      rfl

theorem numbersOk_addEvent (g : Game) (e : Event) (h : NumbersOk g) :
    NumbersOk (addEvent g e) := by
  unfold NumbersOk addEvent at *
  simp only [List.map_append, List.length_append, List.map_cons, List.map_nil,
    List.length_cons, List.length_nil]
  rw [h]
  rw [show g.events.length + (0 + 1) = g.events.length + 1 by omega, range1_concat]
  simp [Nat.add_comm]

theorem numbersOk_guess (g : Game) (pid name : String) (team : Int) (index : Int) (now : Int)
    (h : NumbersOk g) : NumbersOk (guess g pid name team index now) := by
  unfold guess
  split
  · exact numbersOk_addEvent _ _ h
  · exact h

theorem numbersOk_step (g : Game) (o : Op) (h : NumbersOk g) : NumbersOk (step g o) := by
  cases o with
  | guessOp pid name team index now =>
      exact numbersOk_guess _ _ _ _ _ _ (numbersOk_markSeen _ _ _ _ _ h)
  | endTurnOp pid name team now =>
      exact numbersOk_addEvent _ _ (numbersOk_markSeen _ _ _ _ _ h)
  | chatOp pid name team message now =>
      exact numbersOk_addEvent _ _ (numbersOk_markSeen _ _ _ _ _ h)
  | pingOp pid name team now => exact numbersOk_markSeen _ _ _ _ _ h

theorem numbersOk_mkGame (seed : Nat) (words : List String) (now : Int) :
    NumbersOk (mkGame seed words now) := rfl

theorem numbersOk_runOps (g : Game) (ops : List Op) (h : NumbersOk g) :
    NumbersOk (runOps g ops) := by
  induction ops generalizing g with
  | nil => exact h
  | cons o rest ih => exact ih (step g o) (numbersOk_step g o h)

theorem map_number_filter (n : Int) : ∀ (l : List Event),
    (l.filter fun e => decide (n < (e.number : Int))).map Event.number
      = (l.map Event.number).filter fun (m : Nat) => decide (n < (m : Int)) := by
  intro l
  induction l with
  | nil => rfl
  | cons e rest ih =>
      by_cases hc : n < (e.number : Int)
      · simp [List.filter_cons, hc, ih]
      · simp [List.filter_cons, hc, ih]

theorem filter_lt_range_all (t : Nat) : ∀ (len s : Nat), t < s →
    ((List.range' s len).filter fun m => decide (t < m)) = List.range' s len := by
  intro len
  induction len with
  | zero => intro s _; rfl
  | succ k ih =>
      intro s hs
      show ((s :: List.range' (s + 1) k).filter fun m => decide (t < m)) = _
      rw [List.filter_cons, if_pos (decide_eq_true hs), ih (s + 1) (by omega)]
      rfl

theorem filter_lt_range (t : Nat) : ∀ (len s : Nat), s ≤ t + 1 →
    ((List.range' s len).filter fun m => decide (t < m))
      = List.range' (t + 1) (len - (t + 1 - s)) := by
  intro len
  induction len with
  | zero => intro s _; simp
  | succ k ih =>
      intro s hs
      show ((s :: List.range' (s + 1) k).filter fun m => decide (t < m)) = _
      rw [List.filter_cons]
      by_cases hc : t < s
      · have hse : s = t + 1 := by omega
        rw [if_pos (decide_eq_true hc), filter_lt_range_all t k (s + 1) (by omega)]
        subst hse
        simp only [Nat.sub_self, Nat.sub_zero]
        exact (List.range'_succ (t + 1) k 1).symm
      · rw [if_neg (by simp [hc]), ih (s + 1) (by omega)]
        have he : k - (t + 1 - (s + 1)) = k + 1 - (t + 1 - s) := by omega
        rw [he]

theorem eventsSince_mem (g : Game) (n : Int) (e : Event) :
    e ∈ eventsSince g n ↔ e ∈ g.events ∧ n < (e.number : Int) := by
  unfold eventsSince
  rw [List.mem_filter]
  simp

theorem eventsSince_range (g : Game) (h : NumbersOk g) (n : Int) :
    (eventsSince g n).map Event.number
      = List.range' (n.toNat + 1) (g.events.length - n.toNat) := by
  unfold eventsSince
  rw [map_number_filter, h]
  have hcg : ((List.range' 1 g.events.length).filter fun (m : Nat) => decide (n < (m : Int)))
      = (List.range' 1 g.events.length).filter fun (m : Nat) => decide (n.toNat < m) := by
    apply List.filter_congr
    intro m hm
    have hm1 : 1 ≤ m := (List.mem_range'_1.mp hm).1
    simp only [decide_eq_decide]
    omega
  rw [hcg, filter_lt_range n.toNat g.events.length 1 (by omega)]
  have he : g.events.length - (n.toNat + 1 - 1) = g.events.length - n.toNat := by omega
  rw [he]

theorem shuffleGo_fst_cons {α : Type} [DecidableEq α] (k rng : Nat) (x : α) (xs : List α) :
    (shuffleGo (k + 1) rng (x :: xs)).1
      = (x :: xs).get ⟨rng % (x :: xs).length, Nat.mod_lt _ (Nat.succ_pos xs.length)⟩
        :: (shuffleGo k (lcg rng)
            ((x :: xs).erase
              ((x :: xs).get ⟨rng % (x :: xs).length, Nat.mod_lt _ (Nat.succ_pos xs.length)⟩))).1 :=
  rfl

theorem shuffleGo_perm {α : Type} [DecidableEq α] :
    ∀ (f rng : Nat) (l : List α), ((shuffleGo f rng l).1).Perm l := by
  intro f
  induction f with
  | zero => intro rng l; exact List.Perm.refl l
  | succ k ih =>
      intro rng l
      cases l with
      | nil => exact List.Perm.refl []
      | cons x xs =>
          rw [shuffleGo_fst_cons]
          exact ((ih (lcg rng) _).cons _).trans
            (List.perm_cons_erase (List.get_mem _ _ _)).symm

theorem zipWith_tile_word : ∀ (ws : List String) (cs : List Color),
    ws.length = cs.length →
    (List.zipWith (fun w c => Tile.mk w c false) ws cs).map Tile.word = ws := by
  intro ws
  induction ws with
  | nil => intro cs _; rfl
  | cons w rest ih =>
      intro cs hlen
      cases cs with
      | nil => simp at hlen
      | cons c cs2 =>
          simp only [List.zipWith_cons_cons, List.map_cons]
          rw [ih cs2 (by simpa using hlen)]

theorem zipWith_tile_color : ∀ (ws : List String) (cs : List Color),
    ws.length = cs.length →
    (List.zipWith (fun w c => Tile.mk w c false) ws cs).map Tile.color = cs := by
  intro ws
  induction ws with
  | nil =>
      intro cs hlen
      cases cs with
      | nil => rfl
      | cons c cs2 => simp at hlen
  | cons w rest ih =>
      intro cs hlen
      cases cs with
      | nil => simp at hlen
      | cons c cs2 =>
          simp only [List.zipWith_cons_cons, List.map_cons]
          rw [ih cs2 (by simpa using hlen)]

theorem NewState_shapes (seed : Nat) (words : List String)
    (hlen : colorDistribution.length ≤ words.length) :
    (NewState seed words).map Tile.word
        = (shuffleGo words.length (lcg seed) words).1.take colorDistribution.length
      ∧ (NewState seed words).map Tile.color
        = (shuffleGo colorDistribution.length
            (shuffleGo words.length (lcg seed) words).2 colorDistribution).1 := by
  unfold NewState
  have hws : (shuffleGo words.length (lcg seed) words).1.length = words.length :=
    (shuffleGo_perm words.length (lcg seed) words).length_eq
  have hcs : (shuffleGo colorDistribution.length
      (shuffleGo words.length (lcg seed) words).2 colorDistribution).1.length
      = colorDistribution.length :=
    (shuffleGo_perm colorDistribution.length _ colorDistribution).length_eq
  have htake : ((shuffleGo words.length (lcg seed) words).1.take
      colorDistribution.length).length = colorDistribution.length := by
    rw [List.length_take, hws]
    omega
  constructor
  · exact zipWith_tile_word _ _ (by rw [htake, hcs])
  · exact zipWith_tile_color _ _ (by rw [htake, hcs])

theorem alookup_upsert_self {α : Type} (id : String) (v : α) :
    ∀ (l : List (String × α)), alookup id (upsert id v l) = some v := by
  intro l
  induction l with
  | nil => simp [upsert, alookup]
  | cons p rest ih =>
      by_cases hk : p.1 = id
      · simp [upsert, hk, alookup]
      · simp [upsert, hk, alookup, ih]

/-- Claim C2: a create/reset request on an existing session whose prev_seed
is absent or differs from the live seed returns the existing game unchanged —
the registry is untouched, so seed, tiles, players and events are exactly as
before and no event is appended (handler.go lines 129-143). -/
theorem c2_reset_guard (s : HandlerState) (gameID : String) (bodyWords : List String)
    (prevSeed : Option Nat) (freshSeed : Nat) (now : Int) (og : Game)
    (hid : gameID ≠ "") (hlook : lookupGame s gameID = some og)
    (hmismatch : prevSeed ≠ some og.seed) :
    handleNewGame s gameID bodyWords prevSeed freshSeed now = (s, .gameResp og) := by
  unfold handleNewGame
  rw [if_neg hid, hlook]
  simp [hmismatch]

theorem c2_reset_guard_witness :
    ("g" : String) ≠ "" ∧ lookupGame cState "g" = some cGame ∧ (none : Option Nat) ≠ some cGame.seed
    ∧ handleNewGame cState "g" [] none 42 5 = (cState, .gameResp cGame) :=
  ⟨by decide, by decide, by decide,
    c2_reset_guard cState "g" [] none 42 5 cGame (by decide) (by decide) (by decide)⟩

/-- Claim C7: a create request whose effective word list (after applying the
default) is shorter than the color distribution fails with too_few_words and
leaves the registry unchanged (handler.go lines 145-153).  The creation path
is reached either with no existing game or with a matching prev_seed. -/
theorem c7_too_few_words (s : HandlerState) (gameID : String) (bodyWords : List String)
    (prevSeed : Option Nat) (freshSeed : Nat) (now : Int)
    (hid : gameID ≠ "")
    (hcase : lookupGame s gameID = none
      ∨ ∃ og, lookupGame s gameID = some og ∧ prevSeed = some og.seed)
    (hshort : (if bodyWords = [] then s.allWords else bodyWords).length
      < colorDistribution.length) :
    handleNewGame s gameID bodyWords prevSeed freshSeed now
      = (s, .errorResp "too_few_words") := by
  unfold handleNewGame
  rw [if_neg hid]
  rcases hcase with hnone | ⟨og, hsome, hseed⟩
  · rw [hnone]
    unfold newGameBody
    rw [if_pos hshort]
  · rw [hsome]
    simp only [hseed, ne_eq, not_true_eq_false, if_false]
    unfold newGameBody
    rw [if_pos hshort]

theorem c7_too_few_words_witness :
    ("h" : String) ≠ "" ∧ lookupGame cState "h" = none
    ∧ (if (["x"] : List String) = [] then cState.allWords else ["x"]).length
        < colorDistribution.length
    ∧ handleNewGame cState "h" ["x"] none 42 5 = (cState, .errorResp "too_few_words") :=
  ⟨by decide, by decide, by decide,
    c7_too_few_words cState "h" ["x"] none 42 5 (by decide) (Or.inl (by decide)) (by decide)⟩

/-- Claim C5: a guess with matching seed and an out-of-bounds index leaves
the session's tiles and events unchanged (no revealed flag flips, no event is
appended); only the presence upsert of `markSeen` happens (handler.go lines
198-207 and the bounds check of `guess`). -/
theorem c5_oob_guess (s : HandlerState) (gameID pid name : String) (team : Int)
    (index : Int) (now : Int) (g : Game)
    (hid : gameID ≠ "") (hteam : team ≠ 0) (hpid : pid ≠ "")
    (hlook : lookupGame s gameID = some g)
    (hoob : ¬ (0 ≤ index ∧ index.toNat < g.tiles.length)) :
    ∃ g2, handleGuess s gameID g.seed pid name team index now
        = (setGame s gameID g2, .okResp)
      ∧ g2.tiles = g.tiles ∧ g2.events = g.events := by
  refine ⟨markSeen g pid name team now, ?_, rfl, rfl⟩
  unfold handleGuess
  rw [if_neg (by simp [hid, hteam, hpid]), hlook]
  show (if g.seed ≠ g.seed then (s, Response.errorResp "bad_seed")
    else (setGame s gameID (guess (markSeen g pid name team now) pid name team index now),
      Response.okResp)) = _
  rw [if_neg (by simp)]
  unfold guess
  rw [dif_neg (by simpa [markSeen] using hoob)]

theorem c5_oob_guess_witness :
    ("g" : String) ≠ "" ∧ (1 : Int) ≠ 0 ∧ ("p" : String) ≠ ""
    ∧ lookupGame cState "g" = some cGame
    ∧ ¬ ((0 : Int) ≤ 3 ∧ (3 : Int).toNat < cGame.tiles.length)
    ∧ ∃ g2, handleGuess cState "g" cGame.seed "p" "alice" 1 3 5
        = (setGame cState "g" g2, .okResp)
      ∧ g2.tiles = cGame.tiles ∧ g2.events = cGame.events :=
  ⟨by decide, by decide, by decide, by decide, by decide,
    c5_oob_guess cState "g" "p" "alice" 1 3 5 cGame
      (by decide) (by decide) (by decide) (by decide) (by decide)⟩

/-- Claim C6, as stated, is false: the handlers reject only `team == 0`
(handler.go line 185); a negative team passes the boundary check.  Here a
chat request with team -1 on the live session is answered ok and appends an
event, mutating game state. -/
theorem c6_counterexample :
    (handleChat cState "g" 1 "p" "alice" (-1) "hi" 5).2 = .okResp
    ∧ ((lookupGame (handleChat cState "g" 1 "p" "alice" (-1) "hi" 5).1 "g").map
        fun g => g.events.length) = some 1 := by
  decide

/-- Claim C6 amended: a guess, end-turn or chat request whose team field is
exactly zero is rejected as malformed input with no state mutation
(negative teams are not rejected). -/
theorem c6_zero_team_rejected (s : HandlerState) (gameID : String) (seed : Nat)
    (pid name : String) (index : Int) (message : String) (now : Int) :
    handleGuess s gameID seed pid name 0 index now = (s, .errorResp "malformed_body")
    ∧ handleEndTurn s gameID seed pid name 0 now = (s, .errorResp "malformed_body")
    ∧ handleChat s gameID seed pid name 0 message now = (s, .errorResp "malformed_body") := by
  refine ⟨?_, ?_, ?_⟩
  · unfold handleGuess
    rw [if_pos (by simp)]
  · unfold handleEndTurn
    rw [if_pos (by simp)]
  · unfold handleChat
    rw [if_pos (by simp)]

/-- The inner `id :=` of the candidate loop in handleIndex shadows the
serialized outer variable, so whenever the loop exits it yields the untouched
outer value. -/
theorem indexLoop_returns_outer (games : List (String × Game)) (id : String) :
    ∀ (draws : List (String × String)) (r : String),
      indexLoop games id draws = some r → r = id := by
  intro draws
  induction draws with
  | nil => intro r hr; simp [indexLoop] at hr
  | cons d rest ih =>
      intro r hr
      unfold indexLoop at hr
      by_cases hfree : (alookup (d.1 ++ "-" ++ d.2) games).isNone
      · simp [hfree] at hr
        exact hr.symm
      · simp [hfree] at hr
        exact ih r hr

/-- Claim C10: for every registry and every draw stream, the index endpoint
either never exits its loop or responds with autogenerated_id equal to the
empty string. -/
theorem c10_autogenerated_id_empty (s : HandlerState) (draws : List (String × String)) :
    handleIndex s draws = none ∨ handleIndex s draws = some (.indexResp "") := by
  unfold handleIndex
  cases hl : indexLoop s.games "" draws with
  | none => exact Or.inl rfl
  | some r =>
      right
      rw [indexLoop_returns_outer s.games "" draws r hl]
      rfl

/-- Claim C1, as stated, is false for the non-poll endpoints: a guess whose
seed differs from the live game's seed is answered with a bad_seed error
(handler.go lines 200-203), not with the current seed and the missed
events. -/
theorem c1_counterexample :
    (handleGuess cState "g" 2 "p" "alice" 1 0 5).2 = .errorResp "bad_seed"
    ∧ (handleGuess cState "g" 2 "p" "alice" 1 0 5).2
        ≠ .updateResp cGame.seed (eventsSince cGame 0) := by
  decide

/-- Claim C1 amended: on a seed mismatch no state is mutated (no presence
touched, no event appended) on any endpoint; the events poll answers with the
current seed and the events since the caller's last-known event, while guess,
end-turn, chat and ping answer with a bad_seed error. -/
theorem c1_seed_mismatch (s : HandlerState) (gameID : String) (seed : Nat)
    (pid name : String) (team : Int) (index : Int) (message : String)
    (lastEvent : Int) (now : Int) (g : Game)
    (hlook : lookupGame s gameID = some g) (hseed : seed ≠ g.seed)
    (hid : gameID ≠ "") (hteam : team ≠ 0) (hpid : pid ≠ "") (hmsg : message ≠ "") :
    handleGuess s gameID seed pid name team index now = (s, .errorResp "bad_seed")
    ∧ handleEndTurn s gameID seed pid name team now = (s, .errorResp "bad_seed")
    ∧ handleChat s gameID seed pid name team message now = (s, .errorResp "bad_seed")
    ∧ handlePing s gameID seed pid name team now = (s, .errorResp "bad_seed")
    ∧ handleEvents s gameID seed pid name team lastEvent now
        = (s, .updateResp g.seed (eventsSince g lastEvent)) := by
  refine ⟨?_, ?_, ?_, ?_, ?_⟩
  · unfold handleGuess
    rw [if_neg (by simp [hid, hteam, hpid]), hlook]
    exact if_pos hseed
  · unfold handleEndTurn
    rw [if_neg (by simp [hid, hteam, hpid]), hlook]
    exact if_pos hseed
  · unfold handleChat
    rw [if_neg (by simp [hid, hteam, hpid, hmsg]), hlook]
    exact if_pos hseed
  · unfold handlePing
    rw [if_neg (by simp [hid, hpid]), hlook]
    exact if_pos hseed
  · unfold handleEvents
    rw [if_neg (by simp [hid, hpid]), hlook]
    exact if_pos hseed

theorem c1_seed_mismatch_witness :
    lookupGame cState "g" = some cGame ∧ (2 : Nat) ≠ cGame.seed
    ∧ handleGuess cState "g" 2 "p" "alice" 1 0 5 = (cState, .errorResp "bad_seed")
    ∧ handleEvents cState "g" 2 "p" "alice" 1 0 5
        = (cState, .updateResp cGame.seed (eventsSince cGame 0)) := by
  have h := c1_seed_mismatch cState "g" 2 "p" "alice" 1 0 "hi" 0 5 cGame
    (by decide) (by decide) (by decide) (by decide) (by decide) (by decide)
  exact ⟨by decide, by decide, h.1, h.2.2.2.2⟩

theorem pruneOldPlayers_createdAt (g : Game) (now : Int) :
    (pruneOldPlayers g now).createdAt = g.createdAt := rfl

/-- Claim C8, as stated, is false at the retention boundary: the sweep keeps
a session only while `CreatedAt.Add(24h).After(now)` (handler.go line 58), a
strict inequality, so a zero-player session aged exactly 24 hours is deleted
even though it was not created more than 24 hours before the sweep. -/
theorem c8_counterexample :
    (sweep cState dayNanos).games = []
    ∧ ¬ (dayNanos - cGame.createdAt > dayNanos) := by
  decide

/-- Claim C8 amended: a sweep at time `now` retains exactly the sessions
that, after pruning idle players, still have at least one player or were
created less than 24 hours (inclusive boundary: strictly after `now - 24h`)
before the sweep; every retained game is the pruned one, and every session
failing both conditions is deleted. -/
theorem c8_sweep_retention (s : HandlerState) (now : Int) (id : String) (g2 : Game) :
    (id, g2) ∈ (sweep s now).games
      ↔ ∃ g, (id, g) ∈ s.games ∧ g2 = pruneOldPlayers g now
          ∧ (0 < g2.players.length ∨ now < g2.createdAt + dayNanos) := by
  unfold sweep
  simp only [List.mem_filter, List.mem_map, Bool.or_eq_true, decide_eq_true_eq]
  constructor
  · rintro ⟨⟨⟨i, g⟩, hmem, heq⟩, hkeep⟩
    cases heq
    exact ⟨g, hmem, rfl, hkeep⟩
  · rintro ⟨g, hmem, hg2, hkeep⟩
    subst hg2
    exact ⟨⟨(id, g), hmem, rfl⟩, hkeep⟩

/-- Claim C9, as stated, is false on the "different Seed" conjunct: the
replacement draws a fresh `rand.Int63()` with no inequality check against
the old seed (handler.go line 155), so a reset whose drawn seed coincides
with the live seed yields a replacing game with the same seed.  Here the
old game has seed 1, the reset carries prev_seed 1 (so it is accepted) and
the fresh draw is also 1; the game is replaced (its creation time changes)
yet the seed is unchanged. -/
theorem c9_counterexample :
    ((lookupGame (handleNewGame cState "g" cWords (some 1) 1 7).1 "g").map Game.seed) = some 1
    ∧ cGame.seed = 1
    ∧ (handleNewGame cState "g" cWords (some 1) 1 7).2 ≠ .gameResp cGame := by
  decide

/-- Claim C9 amended: a successful reset replaces the game with one whose
seed is the freshly drawn seed (not guaranteed different from the old one),
whose event log is empty, whose tiles are freshly generated from the new
seed, and whose players map contains exactly the player ids of the old game,
each with team cleared to 0 and name cleared (only last-seen carries over);
no tiles or events of the old game carry over. -/
theorem c9_reset_carryover (s : HandlerState) (gameID : String) (bodyWords : List String)
    (freshSeed : Nat) (now : Int) (og : Game)
    (hid : gameID ≠ "") (hlook : lookupGame s gameID = some og)
    (hwords : ¬ (if bodyWords = [] then s.allWords else bodyWords).length
      < colorDistribution.length) :
    ∃ g2, handleNewGame s gameID bodyWords (some og.seed) freshSeed now
        = (setGame s gameID g2, .gameResp g2)
      ∧ g2.seed = freshSeed
      ∧ g2.events = []
      ∧ g2.tiles = NewState freshSeed (if bodyWords = [] then s.allWords else bodyWords)
      ∧ g2.players = og.players.map fun p => (p.1, ⟨"", 0, p.2.lastSeen⟩) := by
  refine ⟨{ seed := freshSeed,
            tiles := NewState freshSeed (if bodyWords = [] then s.allWords else bodyWords),
            players := og.players.map fun p => (p.1, ⟨"", 0, p.2.lastSeen⟩),
            events := [], createdAt := now }, ?_, rfl, rfl, rfl, rfl⟩
  unfold handleNewGame
  rw [if_neg hid, hlook]
  show (if some og.seed ≠ some og.seed then (s, Response.gameResp og)
    else newGameBody s gameID bodyWords freshSeed now (some og)) = _
  rw [if_neg (by simp)]
  unfold newGameBody
  rw [if_neg hwords]

theorem c9_reset_carryover_witness :
    ("g" : String) ≠ "" ∧ lookupGame cState "g" = some cGame
    ∧ ¬ (if cWords = [] then cState.allWords else cWords).length < colorDistribution.length
    ∧ ∃ g2, handleNewGame cState "g" cWords (some cGame.seed) 42 7
        = (setGame cState "g" g2, .gameResp g2)
      ∧ g2.seed = 42
      ∧ g2.events = []
      ∧ g2.tiles = NewState 42 (if cWords = [] then cState.allWords else cWords)
      ∧ g2.players = cGame.players.map fun p => (p.1, ⟨"", 0, p.2.lastSeen⟩) :=
  ⟨by decide, by decide, by decide,
    c9_reset_carryover cState "g" cWords 42 7 cGame (by decide) (by decide) (by decide)⟩

/-- Claim C3: for every session created fresh and every interleaving of
operations on it, the event log's sequence numbers are exactly 1, 2, ...,
length (1-based, strictly increasing, gap-free), and every `eventsSince n`
returns exactly the events with sequence number greater than `n`, whose
numbers form the gap-free strictly increasing range n+1, ..., length. -/
theorem c3_event_sequence (seed : Nat) (words : List String) (now : Int)
    (ops : List Op) (n : Int) :
    (runOps (mkGame seed words now) ops).events.map Event.number
        = List.range' 1 (runOps (mkGame seed words now) ops).events.length
    ∧ (∀ e, e ∈ eventsSince (runOps (mkGame seed words now) ops) n
        ↔ e ∈ (runOps (mkGame seed words now) ops).events ∧ n < (e.number : Int))
    ∧ (eventsSince (runOps (mkGame seed words now) ops) n).map Event.number
        = List.range' (n.toNat + 1)
            ((runOps (mkGame seed words now) ops).events.length - n.toNat) := by
  have h : NumbersOk (runOps (mkGame seed words now) ops) :=
    numbersOk_runOps _ ops (numbersOk_mkGame seed words now)
  exact ⟨h, fun e => eventsSince_mem _ n e, eventsSince_range _ h n⟩

/-- Claim C4, as stated, is false on the distinctness conjunct for word
lists that contain duplicates: the generator shuffles the list and takes a
prefix (spec section 4.1), so a duplicated word can appear on two tiles.
With an eight-word list containing "a" twice, the eight tiles are a
permutation of the list and repeat "a". -/
theorem c4_counterexample :
    colorDistribution.length ≤ dupWords.length
    ∧ ¬ ((NewState 0 dupWords).map Tile.word).Nodup := by
  decide

/-- Claim C4 amended: for every seed and every duplicate-free word list (the
spec's vocabulary is deduplicated) of size at least the color distribution,
the generated board has exactly `|colorDistribution|` tiles, pairwise
distinct words all drawn from the word list, colors forming exactly the
colorDistribution multiset; generation is a pure function of seed and word
list (the final conjunct is its determinism, definitional in this
embedding). -/
theorem c4_board_generation (seed : Nat) (words : List String)
    (hlen : colorDistribution.length ≤ words.length) (hnd : words.Nodup) :
    (NewState seed words).length = colorDistribution.length
    ∧ ((NewState seed words).map Tile.word).Nodup
    ∧ (∀ t ∈ NewState seed words, t.word ∈ words)
    ∧ ((NewState seed words).map Tile.color).Perm colorDistribution
    ∧ NewState seed words = NewState seed words := by
  obtain ⟨hw, hcol⟩ := NewState_shapes seed words hlen
  have hperm : ((shuffleGo words.length (lcg seed) words).1).Perm words :=
    shuffleGo_perm words.length (lcg seed) words
  have hwslen : (shuffleGo words.length (lcg seed) words).1.length = words.length :=
    hperm.length_eq
  refine ⟨?_, ?_, ?_, ?_, rfl⟩
  · have hml : ((NewState seed words).map Tile.word).length
        = ((shuffleGo words.length (lcg seed) words).1.take colorDistribution.length).length := by
      rw [hw]
    rw [List.length_map] at hml
    rw [hml, List.length_take, hwslen]
    omega
  · rw [hw]
    exact (hperm.symm.nodup hnd).sublist (List.take_sublist _ _)
  · intro t ht
    have hmem : t.word ∈ (NewState seed words).map Tile.word :=
      List.mem_map_of_mem Tile.word ht
    rw [hw] at hmem
    exact hperm.subset (List.take_subset _ _ hmem)
  · rw [hcol]
    exact shuffleGo_perm _ _ _

theorem c4_board_generation_witness :
    (colorDistribution.length ≤ cWords.length ∧ cWords.Nodup)
    ∧ ((NewState 3 cWords).length = colorDistribution.length
      ∧ ((NewState 3 cWords).map Tile.word).Nodup
      ∧ (∀ t ∈ NewState 3 cWords, t.word ∈ cWords)
      ∧ ((NewState 3 cWords).map Tile.color).Perm colorDistribution
      ∧ NewState 3 cWords = NewState 3 cWords) :=
  ⟨⟨by decide, by decide⟩, c4_board_generation 3 cWords (by decide) (by decide)⟩

end CodenamesGreen
